import Mathlib

/-!
# Speed-Limit-Tracker-NZ: the `SpeedLimit` view

A shallow embedding of `src/components/SpeedLimit.jsx`: the two state slots
(`speedLimit`, `locationDetails`), the connectivity flag, the refresh effect with
its two fetches and their `.then` / `.catch` handlers, and the values derived at
render time (`isLoading`, `isError`, `maxSpeed`, `backgroundColor`, the content of
the outer circle).

Modelling conventions.
* A JavaScript string is a Lean `String`. Every string operation of the component
  (`includes("Error")`, `parseInt`, `===` against a literal) looks for ASCII
  characters only, so reading the string by code points instead of UTF-16 code
  units gives the same answers.
* A finite JavaScript Number is kept as the exact rational it denotes. `parseInt`
  reads a mathematical integer and returns the Number for it: the nearest double,
  ties to even, and an infinity beyond the range of doubles. (For more than 20
  decimal digits ECMAScript lets an engine round a shortened digit string instead;
  the exact rounding modelled here is what the engines do.)
* The JSON bodies handed to the `.then` handlers are typed after the two services:
  objects whose members are either missing or strings. A missing member reads as
  `undefined`, and reading a member of `undefined` throws.
-/

namespace SpeedLimit

/-! ## JavaScript values -/

/-- A JavaScript Number. -/
inductive JSNum
  | nan
  | negInf
  | fin (q : ℚ)
  | posInf
deriving DecidableEq

/-- The global function `isNaN` on a Number. -/
def isNaN : JSNum → Bool
  | .nan => true
  | _ => false

/-- The comparison `a > b` on Numbers; it is false as soon as one side is `NaN`. -/
def JSNum.gt : JSNum → JSNum → Bool
  | .nan, _ => false
  | _, .nan => false
  | _, .posInf => false
  | .posInf, _ => true
  | .negInf, _ => false
  | .fin _, .negInf => true
  | .fin a, .fin b => decide (b < a)

/-- Modelled from the spec: the hook `useCurrentLocation` is not among the sources. The
spec gives `Position = { latitude: float|absent, longitude: float|absent, speed:
float|absent }`; an absent field is `undefined` or `null`, a present one is a Number. -/
inductive Reading
  | undefined
  | null
  | num (x : JSNum)
deriving DecidableEq

/-- Modelled from the spec: the object returned by `useCurrentLocation()`. -/
structure Position where
  latitude : Reading
  longitude : Reading
  speed : Reading
deriving DecidableEq

/-- ToBoolean on a position field: `undefined`, `null`, `0` and `NaN` are falsy. -/
def Reading.truthy : Reading → Bool
  | .undefined => false
  | .null => false
  | .num .nan => false
  | .num (.fin q) => decide (q ≠ 0)
  | .num _ => true

/-- ToNumber on a position field, as applied by `>`: `undefined` is `NaN`, `null` is `0`. -/
def Reading.toNumber : Reading → JSNum
  | .undefined => .nan
  | .null => .fin 0
  | .num x => x

/-- The values the `speedLimit` slot takes: `null` (initial state, and after coming back
online), `undefined` (a first way without a `maxspeed` tag) or a string. -/
inductive SpeedLimitValue
  | null
  | undefined
  | str (s : String)
deriving DecidableEq

/-- ToBoolean: `null`, `undefined` and the empty string are falsy. -/
def SpeedLimitValue.truthy : SpeedLimitValue → Bool
  | .str s => s != ""
  | _ => false

/-- ToString, as applied by `parseInt` to its argument. -/
def SpeedLimitValue.toStr : SpeedLimitValue → String
  | .null => "null"
  | .undefined => "undefined"
  | .str s => s

/-- An optional string member read from a JSON object: missing is `undefined`. -/
def ofMember : Option String → SpeedLimitValue
  | none => .undefined
  | some s => .str s

/-- The expression `a || b` where `a` is a possibly missing string member and `b` a
string: `a` when it is truthy (present and not empty), otherwise `b`. -/
def orElse (a : Option String) (b : String) : String :=
  match a with
  | some s => if s != "" then s else b
  | none => b

/-! ## String functions -/

/-- Whether `needle` occurs in `hay` as a contiguous run. -/
def occursIn (needle : List Char) : List Char → Bool
  | [] => needle.isEmpty
  | c :: rest => needle.isPrefixOf (c :: rest) || occursIn needle rest

/-- The method `String.prototype.includes`: `s.includes(t)`. -/
def includes (s t : String) : Bool := occursIn t.data s.data

/-- White space and line terminators, which `parseInt` skips at the start. -/
def isWhiteSpace (c : Char) : Bool :=
  c.toNat ∈ [0x09, 0x0A, 0x0B, 0x0C, 0x0D, 0x20, 0xA0, 0x1680, 0x2000, 0x2001, 0x2002,
    0x2003, 0x2004, 0x2005, 0x2006, 0x2007, 0x2008, 0x2009, 0x200A, 0x2028, 0x2029,
    0x202F, 0x205F, 0x3000, 0xFEFF]

/-- The value of a character as a digit: `0-9`, then `a-z` / `A-Z` for 10 to 35. -/
def digitValue (c : Char) : Option Nat :=
  let n := c.toNat
  if 48 ≤ n ∧ n ≤ 57 then some (n - 48)
  else if 97 ≤ n ∧ n ≤ 122 then some (n - 97 + 10)
  else if 65 ≤ n ∧ n ≤ 90 then some (n - 65 + 10)
  else none

/-- The digits of the longest run of radix-`R` digits at the start of `cs`. -/
def leadingDigits (R : Nat) : List Char → List Nat
  | [] => []
  | c :: rest =>
    match digitValue c with
    | some d => if d < R then d :: leadingDigits R rest else []
    | none => []

/-- The integer written by a list of digits in radix `R`, most significant first. -/
def digitsValue (R : Nat) (ds : List Nat) : Nat :=
  ds.foldl (fun acc d => acc * R + d) 0

/-- The sign step of `parseInt`: a leading `-` gives sign `-1`; a leading `+` or `-` is
removed. -/
def splitSign : List Char → Int × List Char
  | '-' :: rest => (-1, rest)
  | '+' :: rest => (1, rest)
  | cs => (1, cs)

/-- The radix step of `parseInt` called without a radix: a leading `0x` or `0X` is removed
and selects radix 16, otherwise the radix is 10. -/
def splitRadix : List Char → Nat × List Char
  | '0' :: 'x' :: rest => (16, rest)
  | '0' :: 'X' :: rest => (16, rest)
  | cs => (10, cs)

/-- Steps 6 to 9 of `parseInt` on the text after the sign: the radix, the leading run of
digits in that radix, and the integer they write; `none` when there is no digit. -/
def readUnsigned (u : List Char) : Option Nat :=
  let based := splitRadix u
  let Z := leadingDigits based.1 based.2
  if Z.isEmpty then none else some (digitsValue based.1 Z)

/-- The mathematical integer `sign × mathInt` that `parseInt` reads, `none` where it
returns `NaN`. -/
def parseIntMathInt (s : String) : Option Int :=
  let signed := splitSign (s.data.dropWhile isWhiteSpace)
  (readUnsigned signed.2).map (fun m => signed.1 * (m : Int))

/-- How many binary places `m` has beyond 53: the halvings that bring it below `2^53`. The
first argument bounds the recursion and is passed as `m` itself. -/
def shiftOf : Nat → Nat → Nat
  | 0, _ => 0
  | fuel + 1, m => if m < 2 ^ 53 then 0 else shiftOf fuel (m / 2) + 1

/-- A natural number rounded to 53 significant bits, to nearest, ties to even. -/
def roundSignificand (m : Nat) : Nat :=
  let e := shiftOf m m
  let q := m / 2 ^ e
  let r := m % 2 ^ e
  if 2 * r < 2 ^ e then q * 2 ^ e
  else if 2 * r = 2 ^ e then (if q % 2 = 0 then q * 2 ^ e else (q + 1) * 2 ^ e)
  else (q + 1) * 2 ^ e

/-- The bound `2^1024`: a rounded magnitude from here on is beyond every double. -/
def doubleRange : Nat := 2 ^ 256 * 2 ^ 256 * 2 ^ 256 * 2 ^ 256

/-- The Number value of a mathematical integer, the last step of `parseInt`. -/
def toDouble (n : Int) : JSNum :=
  let d := roundSignificand n.natAbs
  if d < doubleRange then
    (if n < 0 then .fin (-(d : ℚ)) else .fin (d : ℚ))
  else
    (if n < 0 then .negInf else .posInf)

/-- The global function `parseInt(string)` with no radix argument. -/
def parseInt (s : String) : JSNum :=
  match parseIntMathInt s with
  | none => .nan
  | some n => toDouble n

/-! ## View state -/

/-- The `locationDetails` slot. Every update spreads the previous object and overwrites
some of these four members, so the object always has exactly these members. -/
structure LocationDetails where
  road : String
  suburb : String
  city : String
  zip : String
deriving DecidableEq

/-- The three `useState` slots of the component. -/
structure ViewState where
  speedLimit : SpeedLimitValue
  locationDetails : LocationDetails
  isOnline : Bool
deriving DecidableEq

/-- The state at mount, with `navigator.onLine` as read then. -/
def initialState (navigatorOnLine : Bool) : ViewState :=
  { speedLimit := .null
    locationDetails :=
      { road := "Unknown Road", suburb := "Unknown Suburb", city := "Unknown City",
        zip := "Unknown Zip Code" }
    isOnline := navigatorOnLine }

/-- The call `setSpeedLimit(v)`. -/
def setSpeedLimit (v : SpeedLimitValue) (st : ViewState) : ViewState :=
  { st with speedLimit := v }

/-- The call `setLocationDetails(prevDetails => f prevDetails)`. -/
def setLocationDetails (f : LocationDetails → LocationDetails) (st : ViewState) : ViewState :=
  { st with locationDetails := f st.locationDetails }

/-- The call `setIsOnline(b)`. -/
def setIsOnline (b : Bool) (st : ViewState) : ViewState :=
  { st with isOnline := b }

/-- The three flags hard-coded at the top of the component. -/
structure TestFlags where
  useTestSpeed : Bool
  useTestNoSpeedLimit : Bool
  useTestErrorFetching : Bool
deriving DecidableEq

/-- The flags as they stand in the source: all off. -/
def sourceFlags : TestFlags :=
  { useTestSpeed := false, useTestNoSpeedLimit := false, useTestErrorFetching := false }

/-! ## Connectivity listener -/

/-- The listener `handleOnlineStatus`, run on an `online` or `offline` event, with the
value `navigator.onLine` has at that moment. -/
def handleOnlineStatus (navigatorOnLine : Bool) (st : ViewState) : ViewState :=
  let st := setIsOnline navigatorOnLine st
  if navigatorOnLine then setSpeedLimit .null st else st

/-! ## Fetch A: the Overpass request -/

/-- How a JavaScript function body ends: normally, or by throwing. -/
inductive Completion
  | normal
  | thrown
deriving DecidableEq

/-- How the promise returned by `axios.get(url)` settles: fulfilled with the parsed JSON
body `response.data`, or rejected. -/
inductive Outcome (α : Type)
  | fulfilled (data : α)
  | rejected

/-- One entry of `elements` in an Overpass answer; `tags` maps tag names to strings and may
be missing. -/
structure OverpassElement where
  tags : Option (List (String × String))
deriving DecidableEq

/-- The body of an Overpass answer, `response.data`; `elements` may be missing. -/
structure OverpassData where
  elements : Option (List OverpassElement)
deriving DecidableEq

/-- The `.then` handler of the Overpass request. State written before a throw stays
written, so the state is returned along with the way the handler ended. -/
def overpassThen (response : OverpassData) (st : ViewState) : Completion × ViewState :=
  match response.elements with
  | none => (.thrown, st) -- `data.length` on `undefined`
  | some data =>
    if data.length > 0 then
      match data.head? with
      | none => (.thrown, st) -- `data[0].tags` on `undefined`
      | some first =>
        match first.tags with
        | none => (.thrown, st) -- `.maxspeed` on `undefined`
        | some tags =>
          let maxSpeed := ofMember (tags.lookup "maxspeed")
          let st := setSpeedLimit maxSpeed st
          let road := orElse (tags.lookup "name") "Unknown Road"
          (.normal, setLocationDetails (fun prevDetails => { prevDetails with road := road }) st)
    else
      (.normal, setSpeedLimit (.str "No speed limit data available.") st)

/-- The `.catch` handler of the Overpass request; `console.error` writes no state. -/
def overpassCatch (st : ViewState) : Completion × ViewState :=
  (.normal, setSpeedLimit (.str "Error fetching speed limit data.") st)

/-- The chain `axios.get(overpassUrl).then(...).catch(...)` once the request has settled:
the `.catch` handler runs when the request is rejected or when the `.then` handler throws. -/
def overpassChain (outcome : Outcome OverpassData) (st : ViewState) : Completion × ViewState :=
  match outcome with
  | .rejected => overpassCatch st
  | .fulfilled response =>
    match overpassThen response st with
    | (.normal, st') => (.normal, st')
    | (.thrown, st') => overpassCatch st'

/-! ## Fetch B: the Nominatim request -/

/-- The `address` object of a Nominatim answer; each member may be missing. -/
structure NominatimAddress where
  suburb : Option String
  city : Option String
  town : Option String
  postcode : Option String
deriving DecidableEq

/-- The body of a Nominatim answer, `response.data`; `address` may be missing. -/
structure NominatimData where
  address : Option NominatimAddress
deriving DecidableEq

/-- The empty object literal, read as an address. -/
def emptyAddress : NominatimAddress :=
  { suburb := none, city := none, town := none, postcode := none }

/-- The `.then` handler of the Nominatim request. -/
def nominatimThen (response : NominatimData) (st : ViewState) : Completion × ViewState :=
  let address := response.address.getD emptyAddress
  let suburb := orElse address.suburb "Unknown Suburb"
  let city := orElse address.city (orElse address.town "Unknown City")
  let zip := orElse address.postcode "Unknown Zip Code"
  (.normal, setLocationDetails
    (fun prevDetails => { prevDetails with suburb := suburb, city := city, zip := zip }) st)

/-- The `.catch` handler of the Nominatim request. -/
def nominatimCatch (st : ViewState) : Completion × ViewState :=
  (.normal, setLocationDetails
    (fun prevDetails => { prevDetails with
      suburb := "Error fetching suburb", city := "Error fetching city",
      zip := "Error fetching zip code" }) st)

/-- The chain `axios.get(nominatimUrl).then(...).catch(...)` once the request has settled. -/
def nominatimChain (outcome : Outcome NominatimData) (st : ViewState) : Completion × ViewState :=
  match outcome with
  | .rejected => nominatimCatch st
  | .fulfilled response =>
    match nominatimThen response st with
    | (.normal, st') => (.normal, st')
    | (.thrown, st') => nominatimCatch st'

/-! ## The refresh effect -/

/-- A request issued by the refresh effect, with the coordinates put into its URL. -/
inductive Request
  | overpass (latitude longitude : Reading)
  | nominatim (latitude longitude : Reading)
deriving DecidableEq

/-- The body of the second `useEffect`: the state it writes synchronously and the requests
it issues, in order. -/
def refreshEffect (flags : TestFlags) (location : Position) (st : ViewState) :
    ViewState × List Request :=
  if flags.useTestNoSpeedLimit then
    (setSpeedLimit (.str "No speed limit data available.") st, [])
  else if flags.useTestErrorFetching then
    (setSpeedLimit (.str "Error fetching speed limit data.") st, [])
  else if location.latitude.truthy && location.longitude.truthy && st.isOnline then
    (st, [.overpass location.latitude location.longitude,
          .nominatim location.latitude location.longitude])
  else if !st.isOnline then
    (setSpeedLimit (.str "No Internet Connection!") st, [])
  else
    (st, [])

/-! ## Values derived at render time -/

/-- Line `const isLoading = speedLimit === null`. -/
def isLoading (speedLimit : SpeedLimitValue) : Bool :=
  speedLimit == .null

/-- Line `const isError = speedLimit && speedLimit.includes("Error")`, read as a condition:
a falsy `speedLimit` stops the `&&` before `includes` is looked up. -/
def isError (speedLimit : SpeedLimitValue) : Bool :=
  speedLimit.truthy &&
    match speedLimit with
    | .str s => includes s "Error"
    | _ => false

/-- The speed shown and compared: `location.speed`, or 55 under `useTestSpeed`. -/
def currentSpeed (flags : TestFlags) (location : Position) : Reading :=
  if flags.useTestSpeed then .num (.fin 55) else location.speed

/-- Line `const maxSpeed = speedLimit && !isNaN(parseInt(speedLimit)) ? parseInt(speedLimit)
: Infinity`. -/
def maxSpeed (speedLimit : SpeedLimitValue) : JSNum :=
  if speedLimit.truthy && !isNaN (parseInt speedLimit.toStr) then parseInt speedLimit.toStr
  else .posInf

/-- Line `const backgroundColor = currentSpeed > maxSpeed ? '#ffcccc' : '#f0f0f0'`. -/
def backgroundColor (currentSpeed : Reading) (speedLimit : SpeedLimitValue) : String :=
  if currentSpeed.toNumber.gt (maxSpeed speedLimit) then "#ffcccc" else "#f0f0f0"

/-- What the outer circle holds: the element chosen by the nested conditional, with the
`speedLimit` it shows. `speedLimitValue` carries whether the inner paragraph has the class
`no-speed-limit-message`. -/
inductive Indicator
  | loadingMessage
  | errorMessage (shown : SpeedLimitValue)
  | speedLimitValue (noSpeedLimitMessage : Bool) (shown : SpeedLimitValue)
  | offlineMessage (shown : SpeedLimitValue)
deriving DecidableEq

/-- The content of `<div className="outer-circle">`. -/
def outerCircle (speedLimit : SpeedLimitValue) (isOnline : Bool) : Indicator :=
  if isLoading speedLimit then .loadingMessage
  else if isError speedLimit then .errorMessage speedLimit
  else if isOnline then
    if speedLimit == .str "No speed limit data available." then
      .speedLimitValue true speedLimit
    else
      .speedLimitValue false speedLimit
  else .offlineMessage speedLimit

/-! ## Predicates and readings used in the statements -/

/-- A possibly missing string member that is present and not the empty string. -/
def presentNonEmpty (a : Option String) (s : String) : Prop := a = some s ∧ s ≠ ""

/-- A possibly missing string member that is missing or the empty string. -/
def missingOrEmpty (a : Option String) : Prop := a = none ∨ a = some ""

/-- A fallback in the spec's wording, "the member if present, otherwise `b`": presence
alone decides, whatever the string is. -/
def presentOr (a : Option String) (b : String) : String :=
  match a with
  | some s => s
  | none => b

/-- The `speedLimit` is a string in which `"Error"` occurs. -/
def containsError (speedLimit : SpeedLimitValue) : Prop :=
  ∃ s, speedLimit = .str s ∧ "Error".data <:+: s.data

/-- The white space and line terminator characters of ECMAScript. -/
def whiteSpaceChars : List Char :=
  [Char.ofNat 0x0009, Char.ofNat 0x000A, Char.ofNat 0x000B, Char.ofNat 0x000C,
   Char.ofNat 0x000D, Char.ofNat 0x0020, Char.ofNat 0x00A0, Char.ofNat 0x1680,
   Char.ofNat 0x2000, Char.ofNat 0x2001, Char.ofNat 0x2002, Char.ofNat 0x2003,
   Char.ofNat 0x2004, Char.ofNat 0x2005, Char.ofNat 0x2006, Char.ofNat 0x2007,
   Char.ofNat 0x2008, Char.ofNat 0x2009, Char.ofNat 0x200A, Char.ofNat 0x2028,
   Char.ofNat 0x2029, Char.ofNat 0x202F, Char.ofNat 0x205F, Char.ofNat 0x3000,
   Char.ofNat 0xFEFF]

/-- The character `c` is the digit `d` of radix `R` (10 or 16): `d` is below `R` and `c`
stands at place `d` of the digit alphabet, in either case of letter. -/
def IsDigitOf (R : Nat) (c : Char) (d : Nat) : Prop :=
  d < R ∧ ("0123456789abcdef".data[d]? = some c ∨ "0123456789ABCDEF".data[d]? = some c)

/-- The text `t` starts with a non-empty run of radix-`R` digits, as long as it can be, and
the run writes the number `m`. -/
def DigitRun (R : Nat) (t : List Char) (m : Nat) : Prop :=
  ∃ (cs : List Char) (ds : List Nat) (rest : List Char),
    t = cs ++ rest ∧ cs ≠ [] ∧ List.Forall₂ (IsDigitOf R) cs ds ∧
    (∀ c d, rest.head? = some c → ¬ IsDigitOf R c d) ∧ m = Nat.ofDigits R ds.reverse

/-- The text starts with `0x` or `0X`. -/
def HexMarked (u : List Char) : Prop :=
  ∃ t, u = '0' :: 'x' :: t ∨ u = '0' :: 'X' :: t

/-- The unsigned reading of `parseInt` without a radix: hexadecimal digits after `0x` or
`0X`, decimal digits otherwise. -/
def Unsigned (u : List Char) (m : Nat) : Prop :=
  (∃ t, (u = '0' :: 'x' :: t ∨ u = '0' :: 'X' :: t) ∧ DigitRun 16 t m) ∨
    (¬ HexMarked u ∧ DigitRun 10 u m)

/-- An optional sign, then an unsigned reading `U`. -/
def SignedBy (U : List Char → Nat → Prop) (b : List Char) (n : Int) : Prop :=
  (∃ u m, b = '-' :: u ∧ U u m ∧ n = -(m : Int)) ∨
  (∃ u m, b = '+' :: u ∧ U u m ∧ n = (m : Int)) ∨
  (∃ m, U b m ∧ n = (m : Int))

/-- The leading integer of a string as `parseInt` reads it: optional white space, an
optional sign, then hexadecimal digits after `0x` / `0X` or else decimal digits. -/
def ReadsInteger (s : String) (n : Int) : Prop :=
  ∃ ws b, s.data = ws ++ b ∧ (∀ c ∈ ws, c ∈ whiteSpaceChars) ∧ SignedBy Unsigned b n

/-- The leading integer in the spec's wording: optional white space, an optional sign, then
decimal digits. -/
def ReadsDecimal (s : String) (n : Int) : Prop :=
  ∃ ws b, s.data = ws ++ b ∧ (∀ c ∈ ws, c ∈ whiteSpaceChars) ∧ SignedBy (DigitRun 10) b n

/-- The number `d` is `m` rounded to 53 significant bits: `m` itself below `2^53`;
otherwise, with `2^(52+e) ≤ m < 2^(53+e)`, a multiple `k * 2^e` at distance at most
`2^e / 2` from `m`, with `k` even when the distance is exactly that. -/
def RoundsTo (m d : Nat) : Prop :=
  (m < 2 ^ 53 ∧ d = m) ∨
  ∃ e k, 2 ^ (52 + e) ≤ m ∧ m < 2 ^ (53 + e) ∧ d = k * 2 ^ e ∧
    2 * m ≤ 2 * d + 2 ^ e ∧ 2 * d ≤ 2 * m + 2 ^ e ∧
    ((2 * m = 2 * d + 2 ^ e ∨ 2 * d = 2 * m + 2 ^ e) → k % 2 = 0)

/-- The Number `x` stands for the integer `n`: its magnitude rounded to 53 significant bits,
with the sign of `n`, or the infinity of that sign once the rounded magnitude reaches
`2^1024`. -/
def NumberOf (n : Int) (x : JSNum) : Prop :=
  ∃ d : Nat, RoundsTo n.natAbs d ∧
    ((d < 2 ^ 1024 ∧ 0 ≤ n ∧ x = .fin (d : ℚ)) ∨
     (d < 2 ^ 1024 ∧ n < 0 ∧ x = .fin (-(d : ℚ))) ∨
     (2 ^ 1024 ≤ d ∧ 0 ≤ n ∧ x = .posInf) ∨
     (2 ^ 1024 ≤ d ∧ n < 0 ∧ x = .negInf))

/-- The current speed is greater than the limit `x`: a numeric speed by its value, `null` as
0, `Infinity` above everything but `Infinity`; `undefined`, `NaN` and `-Infinity` exceed
nothing, and nothing exceeds `Infinity` or `NaN`. -/
def Exceeds : Reading → JSNum → Prop
  | .num (.fin q), .fin l => l < q
  | .num (.fin _), .negInf => True
  | .null, .fin l => l < 0
  | .null, .negInf => True
  | .num .posInf, .fin _ => True
  | .num .posInf, .negInf => True
  | _, _ => False

/-! ## Auxiliary facts -/

theorem orElse_of_presentNonEmpty {a : Option String} {s : String} (b : String)
    (h : presentNonEmpty a s) : orElse a b = s := by
  obtain ⟨rfl, hs⟩ := h
  simp [orElse, hs]

theorem orElse_of_missingOrEmpty {a : Option String} (b : String)
    (h : missingOrEmpty a) : orElse a b = b := by
  rcases h with rfl | rfl <;> simp [orElse]

/-- The search behind `includes` finds exactly the contiguous occurrences. -/
theorem occursIn_iff (needle hay : List Char) :
    occursIn needle hay = true ↔ needle <:+: hay := by
  induction hay with
  | nil => simp [occursIn, List.isEmpty_iff]
  | cons c rest ih =>
    rw [occursIn, Bool.or_eq_true, ih, List.infix_cons_iff, List.isPrefixOf_iff_prefix]

/-- The `.then` handler of the Overpass request throws exactly when `elements` is missing,
or is not empty and its first entry has no `tags`. -/
theorem overpassThen_thrown_iff (response : OverpassData) (st : ViewState) :
    (overpassThen response st).1 = .thrown ↔
      response.elements = none ∨
        ∃ first rest, response.elements = some (first :: rest) ∧ first.tags = none := by
  rcases response with ⟨_ | _ | ⟨first, rest⟩⟩
  · simp [overpassThen]
  · simp [overpassThen]
  · rcases first with ⟨_ | tags⟩ <;> simp [overpassThen]

/-- Whatever the `.then` handler of the Overpass request does, a throw leaves the state as
it was: every read that can throw comes before the first write. -/
theorem overpassThen_thrown_state (response : OverpassData) (st : ViewState)
    (h : (overpassThen response st).1 = .thrown) : (overpassThen response st).2 = st := by
  rcases response with ⟨_ | _ | ⟨first, rest⟩⟩
  · rfl
  · simp [overpassThen] at h
  · rcases first with ⟨_ | tags⟩
    · simp [overpassThen]
    · simp [overpassThen] at h

theorem overpassThen_cons (tags : List (String × String)) (rest : List OverpassElement)
    (st : ViewState) :
    overpassThen { elements := some ({ tags := some tags } :: rest) } st =
      (.normal,
        { st with
          speedLimit := ofMember (tags.lookup "maxspeed")
          locationDetails :=
            { st.locationDetails with road := orElse (tags.lookup "name") "Unknown Road" } }) := by
  simp [overpassThen, setLocationDetails, setSpeedLimit]

theorem shiftOf_spec (fuel m : ℕ) (h : m ≤ fuel) :
    (m < 2 ^ 53 ∧ shiftOf fuel m = 0) ∨
      (2 ^ (52 + shiftOf fuel m) ≤ m ∧ m < 2 ^ (53 + shiftOf fuel m)) := by
  induction fuel generalizing m with
  | zero =>
    left
    have : m = 0 := by omega
    subst this
    exact ⟨by positivity, rfl⟩
  | succ fuel ih =>
    unfold shiftOf
    by_cases hm : m < 2 ^ 53
    · exact Or.inl ⟨hm, if_pos hm⟩
    · right
      rw [if_neg hm]
      have h53 : (2:ℕ) ^ 53 = 2 * 2 ^ 52 := by norm_num
      have hpos : 0 < m := by
        have : 0 < (2:ℕ) ^ 53 := by positivity
        omega
      rcases ih (m / 2) (by omega) with ⟨h1, h2⟩ | ⟨h1, h2⟩
      · rw [h2]
        have e1 : (2:ℕ) ^ (52 + (0 + 1)) = 2 ^ 53 := by norm_num
        have e2 : (2:ℕ) ^ (53 + (0 + 1)) = 2 * 2 ^ 53 := by norm_num
        rw [e1, e2]
        omega
      · generalize shiftOf fuel (m / 2) = e at h1 h2 ⊢
        have e1 : (2:ℕ) ^ (52 + (e + 1)) = 2 * 2 ^ (52 + e) := by ring
        have e2 : (2:ℕ) ^ (53 + (e + 1)) = 2 * 2 ^ (53 + e) := by ring
        rw [e1, e2]
        omega

theorem roundSignificand_small (m : ℕ) (h : m < 2 ^ 53) : roundSignificand m = m := by
  have hs : shiftOf m m = 0 := by
    rcases shiftOf_spec m m le_rfl with ⟨-, h2⟩ | ⟨h1, -⟩
    · exact h2
    · have : (2:ℕ) ^ 53 ≤ 2 ^ (52 + shiftOf m m + 1) := Nat.pow_le_pow_right (by norm_num) (by omega)
      have e1 : (2:ℕ) ^ (52 + shiftOf m m + 1) = 2 * 2 ^ (52 + shiftOf m m) := by ring
      by_contra hne
      have hle : (2:ℕ) ^ 53 ≤ 2 ^ (52 + shiftOf m m) := Nat.pow_le_pow_right (by norm_num) (by omega)
      omega
  simp [roundSignificand, hs, Nat.mod_one]

theorem binade_unique {m e e' : ℕ} (h1 : 2 ^ (52 + e) ≤ m) (h2 : m < 2 ^ (53 + e))
    (h1' : 2 ^ (52 + e') ≤ m) (h2' : m < 2 ^ (53 + e')) : e = e' := by
  have a : 52 + e < 53 + e' := (Nat.pow_lt_pow_iff_right (by norm_num : 1 < 2)).mp (lt_of_le_of_lt h1 h2')
  have b : 52 + e' < 53 + e := (Nat.pow_lt_pow_iff_right (by norm_num : 1 < 2)).mp (lt_of_le_of_lt h1' h2)
  omega

theorem roundSignificand_roundsTo (m : ℕ) : RoundsTo m (roundSignificand m) := by
  by_cases hm : m < 2 ^ 53
  · exact Or.inl ⟨hm, roundSignificand_small m hm⟩
  · right
    rcases shiftOf_spec m m le_rfl with ⟨h1, -⟩ | ⟨h1, h2⟩
    · exact absurd h1 hm
    · unfold roundSignificand
      simp only
      generalize shiftOf m m = e at h1 h2 ⊢
      have hP : 0 < 2 ^ e := by positivity
      have hdm := Nat.div_add_mod m (2 ^ e)
      have hr := Nat.mod_lt m hP
      generalize m / 2 ^ e = q at hdm ⊢
      generalize m % 2 ^ e = r at hdm hr ⊢
      generalize hPdef : 2 ^ e = P at hdm hr hP ⊢
      have hq1 : (q + 1) * P = q * P + P := by ring
      have hq0 : P * q = q * P := by ring
      rw [hq0] at hdm
      split_ifs with c1 c2 c3
      · exact ⟨e, q, h1, h2, by rw [hPdef], by omega, by omega, by omega⟩
      · exact ⟨e, q, h1, h2, by rw [hPdef], by omega, by omega, fun _ => c3⟩
      · refine ⟨e, q + 1, h1, h2, by rw [hPdef], by omega, by omega, fun _ => by omega⟩
      · refine ⟨e, q + 1, h1, h2, by rw [hPdef], by omega, by omega, fun h => by omega⟩

theorem roundsTo_unique {m d d' : ℕ} (h : RoundsTo m d) (h' : RoundsTo m d') : d = d' := by
  rcases h with ⟨h1, rfl⟩ | ⟨e, k, a1, a2, rfl, a3, a4, a5⟩ <;>
    rcases h' with ⟨h1', rfl⟩ | ⟨e', k', b1, b2, rfl, b3, b4, b5⟩
  · rfl
  · have he : e' = 0 := by
      by_contra hne
      have hle : (2:ℕ) ^ 53 ≤ 2 ^ (52 + e') := Nat.pow_le_pow_right (by norm_num) (by omega)
      omega
    subst he
    simp at b3 b4 ⊢
    omega
  · have he : e = 0 := by
      by_contra hne
      have hle : (2:ℕ) ^ 53 ≤ 2 ^ (52 + e) := Nat.pow_le_pow_right (by norm_num) (by omega)
      omega
    subst he
    simp at a3 a4 ⊢
    omega
  · have he := binade_unique a1 a2 b1 b2
    subst he
    have hP : 0 < 2 ^ e := by positivity
    generalize 2 ^ e = P at *
    have hk : k = k' ∨ k = k' + 1 ∨ k' = k + 1 := by
      have x1 : k * P < (k' + 2) * P := by nlinarith
      have x2 : k' * P < (k + 2) * P := by nlinarith
      have y1 := Nat.lt_of_mul_lt_mul_right x1
      have y2 := Nat.lt_of_mul_lt_mul_right x2
      omega
    rcases hk with rfl | rfl | rfl
    · rfl
    · have hq1 : (k' + 1) * P = k' * P + P := by ring
      rw [hq1] at a3 a4 a5 ⊢
      have t1 : 2 * (k' * P + P) = 2 * m + P := by omega
      have t2 : 2 * m = 2 * (k' * P) + P := by omega
      have := a5 (Or.inr t1)
      have := b5 (Or.inl t2)
      omega
    · have hq1 : (k + 1) * P = k * P + P := by ring
      rw [hq1] at b3 b4 b5 ⊢
      have t1 : 2 * (k * P + P) = 2 * m + P := by omega
      have t2 : 2 * m = 2 * (k * P) + P := by omega
      have := b5 (Or.inr t1)
      have := a5 (Or.inl t2)
      omega

theorem isWhiteSpace_iff (c : Char) : isWhiteSpace c = true ↔ c ∈ whiteSpaceChars := by
  constructor
  · intro h
    have hc := Char.ofNat_toNat c
    simp only [isWhiteSpace, List.mem_cons, List.mem_singleton, decide_eq_true_eq,
      List.not_mem_nil, or_false] at h
    rw [← hc]
    rcases h with h | h | h | h | h | h | h | h | h | h | h | h | h | h | h | h | h | h | h | h |
      h | h | h | h | h <;> rw [h] <;> decide
  · intro h
    simp only [whiteSpaceChars, List.mem_cons, List.mem_singleton, List.not_mem_nil,
      or_false] at h
    rcases h with h | h | h | h | h | h | h | h | h | h | h | h | h | h | h | h | h | h | h | h |
      h | h | h | h | h <;> rw [h] <;> decide

theorem digitValue_iff (R : Nat) (hR : R ≤ 16) (c : Char) (d : Nat) :
    (digitValue c = some d ∧ d < R) ↔ IsDigitOf R c d := by
  constructor
  · rintro ⟨h, hd⟩
    refine ⟨hd, ?_⟩
    have hd16 : d < 16 := by omega
    have hc := Char.ofNat_toNat c
    unfold digitValue at h
    simp only at h
    generalize c.toNat = n at h hc
    subst hc
    split_ifs at h with h1 h2 h3
    · obtain ⟨a, b⟩ := h1
      simp only [Option.some.injEq] at h
      subst h
      interval_cases n <;> decide
    · obtain ⟨a, b⟩ := h2
      simp only [Option.some.injEq] at h
      subst h
      have : n ≤ 102 := by omega
      interval_cases n <;> decide
    · obtain ⟨a, b⟩ := h3
      simp only [Option.some.injEq] at h
      subst h
      have : n ≤ 70 := by omega
      interval_cases n <;> decide
  · rintro ⟨hd, h⟩
    have hd16 : d < 16 := by omega
    refine ⟨?_, hd⟩
    interval_cases d <;> rcases h with h | h <;>
      simp only [List.getElem?_cons_zero, List.getElem?_cons_succ, Option.some.injEq] at h <;>
      subst h <;> decide


theorem digitsValue_eq (R : Nat) (ds : List Nat) :
    digitsValue R ds = Nat.ofDigits R ds.reverse := by
  have key : ∀ (ds : List Nat) (acc : Nat),
      ds.foldl (fun acc d => acc * R + d) acc = Nat.ofDigits R ds.reverse + acc * R ^ ds.length := by
    intro ds
    induction ds with
    | nil => intro acc; simp
    | cons d l ih =>
      intro acc
      rw [List.foldl_cons, ih, List.reverse_cons, Nat.ofDigits_append, Nat.ofDigits_singleton,
        List.length_reverse, List.length_cons]
      ring
  simpa [digitsValue] using key ds 0

theorem leadingDigits_append (R : Nat) (hR : R ≤ 16) {cs : List Char} {ds : List Nat}
    (h : List.Forall₂ (IsDigitOf R) cs ds) (rest : List Char) :
    leadingDigits R (cs ++ rest) = ds ++ leadingDigits R rest := by
  induction h with
  | nil => rfl
  | cons hcd _ ih =>
    obtain ⟨hv, hlt⟩ := (digitValue_iff R hR _ _).mpr hcd
    simp [leadingDigits, hv, hlt, ih]

theorem leadingDigits_stop (R : Nat) (hR : R ≤ 16) (rest : List Char)
    (h : ∀ c d, rest.head? = some c → ¬ IsDigitOf R c d) : leadingDigits R rest = [] := by
  cases rest with
  | nil => rfl
  | cons c t =>
    unfold leadingDigits
    cases hv : digitValue c with
    | none => rfl
    | some d =>
      simp only
      split_ifs with hlt
      · exact absurd ((digitValue_iff R hR c d).mp ⟨hv, hlt⟩) (h c d rfl)
      · rfl

theorem leadingDigits_decomp (R : Nat) (hR : R ≤ 16) (t : List Char) :
    ∃ cs rest, t = cs ++ rest ∧ List.Forall₂ (IsDigitOf R) cs (leadingDigits R t) ∧
      ∀ c d, rest.head? = some c → ¬ IsDigitOf R c d := by
  induction t with
  | nil => exact ⟨[], [], rfl, List.Forall₂.nil, by simp⟩
  | cons c t ih =>
    have stop : leadingDigits R (c :: t) = [] →
        (∀ d, ¬ (digitValue c = some d ∧ d < R)) →
        ∃ cs rest, c :: t = cs ++ rest ∧ List.Forall₂ (IsDigitOf R) cs (leadingDigits R (c :: t)) ∧
          ∀ c d, rest.head? = some c → ¬ IsDigitOf R c d := by
      intro h0 hno
      refine ⟨[], c :: t, rfl, by rw [h0]; exact List.Forall₂.nil, ?_⟩
      intro c' d hc' hd
      simp only [List.head?_cons, Option.some.injEq] at hc'
      subst hc'
      exact hno d ((digitValue_iff R hR _ d).mpr hd)
    cases hv : digitValue c with
    | none =>
      exact stop (by simp [leadingDigits, hv]) (by simp [hv])
    | some d =>
      by_cases hlt : d < R
      · obtain ⟨cs, rest, ht, hf, hrest⟩ := ih
        refine ⟨c :: cs, rest, by rw [ht]; rfl, ?_, hrest⟩
        have : leadingDigits R (c :: t) = d :: leadingDigits R t := by
          simp [leadingDigits, hv, hlt]
        rw [this]
        exact List.Forall₂.cons ((digitValue_iff R hR c d).mp ⟨hv, hlt⟩) hf
      · refine stop (by simp [leadingDigits, hv, hlt]) ?_
        rintro d' ⟨h1, h2⟩
        rw [hv] at h1
        simp only [Option.some.injEq] at h1
        subst h1
        exact hlt h2

theorem digitRun_iff (R : Nat) (hR : R ≤ 16) (t : List Char) (m : Nat) :
    DigitRun R t m ↔ leadingDigits R t ≠ [] ∧ m = digitsValue R (leadingDigits R t) := by
  constructor
  · rintro ⟨cs, ds, rest, rfl, hne, hf, hrest, rfl⟩
    have hl : leadingDigits R (cs ++ rest) = ds := by
      rw [leadingDigits_append R hR hf, leadingDigits_stop R hR rest hrest, List.append_nil]
    rw [hl, digitsValue_eq]
    refine ⟨?_, rfl⟩
    rintro rfl
    cases hf
    exact hne rfl
  · rintro ⟨hne, rfl⟩
    obtain ⟨cs, rest, ht, hf, hrest⟩ := leadingDigits_decomp R hR t
    refine ⟨cs, leadingDigits R t, rest, ht, ?_, hf, hrest, digitsValue_eq _ _⟩
    rintro rfl
    cases hf' : leadingDigits R t with
    | nil => exact hne hf'
    | cons a l => rw [hf'] at hf; cases hf

theorem digitRun_head {R : Nat} (hR : R ≤ 16) {t : List Char} {m : Nat} (h : DigitRun R t m) :
    ∃ c t' d, t = c :: t' ∧ digitValue c = some d := by
  obtain ⟨cs, ds, rest, rfl, hne, hf, -, -⟩ := h
  cases hf with
  | nil => exact absurd rfl hne
  | cons hcd _ => exact ⟨_, _, _, rfl, ((digitValue_iff R hR _ _).mpr hcd).1⟩

theorem unsigned_iff (u : List Char) (m : Nat) : Unsigned u m ↔ readUnsigned u = some m := by
  have hread : ∀ (R : Nat) (t : List Char), R ≤ 16 →
      ((if (leadingDigits R t).isEmpty then none else some (digitsValue R (leadingDigits R t)))
        = some m ↔ DigitRun R t m) := by
    intro R t hR
    rw [digitRun_iff R hR]
    by_cases h : leadingDigits R t = []
    · simp [h]
    · have hE : (leadingDigits R t).isEmpty = false := by
        cases hl : leadingDigits R t with
        | nil => exact absurd hl h
        | cons a l => rfl
      rw [hE]
      simp only [Bool.false_eq_true, if_false, Option.some.injEq, ne_eq, h, not_false_eq_true,
        true_and]
      exact eq_comm
  by_cases hx : HexMarked u
  · obtain ⟨t, rfl | rfl⟩ := hx
    · have : readUnsigned ('0' :: 'x' :: t) = _ := rfl
      simp only [readUnsigned, splitRadix] at this ⊢
      rw [hread 16 t (by norm_num)]
      constructor
      · rintro (⟨t', h | h, hd⟩ | ⟨hn, -⟩)
        · cases h; exact hd
        · cases h
        · exact absurd ⟨t, Or.inl rfl⟩ hn
      · intro hd
        exact Or.inl ⟨t, Or.inl rfl, hd⟩
    · simp only [readUnsigned, splitRadix]
      rw [hread 16 t (by norm_num)]
      constructor
      · rintro (⟨t', h | h, hd⟩ | ⟨hn, -⟩)
        · cases h
        · cases h; exact hd
        · exact absurd ⟨t, Or.inr rfl⟩ hn
      · intro hd
        exact Or.inl ⟨t, Or.inr rfl, hd⟩
  · have hs : splitRadix u = (10, u) := by
      unfold splitRadix
      split
      · exact absurd ⟨_, Or.inl rfl⟩ hx
      · exact absurd ⟨_, Or.inr rfl⟩ hx
      · rfl
    simp only [readUnsigned, hs]
    rw [hread 10 u (by norm_num)]
    constructor
    · rintro (⟨t', h, -⟩ | ⟨-, hd⟩)
      · exact absurd ⟨t', h⟩ hx
      · exact hd
    · intro hd
      exact Or.inr ⟨hx, hd⟩

theorem unsigned_head {u : List Char} {m : Nat} (h : Unsigned u m) :
    ∃ c t d, u = c :: t ∧ digitValue c = some d := by
  rcases h with ⟨t, h | h, -⟩ | ⟨-, hd⟩
  · exact ⟨'0', _, 0, h, by decide⟩
  · exact ⟨'0', _, 0, h, by decide⟩
  · exact digitRun_head (by norm_num) hd

theorem digit_not_sign {c : Char} {d : Nat} (h : digitValue c = some d) : c ≠ '-' ∧ c ≠ '+' := by
  have h1 : digitValue '-' = none := by decide
  have h2 : digitValue '+' = none := by decide
  constructor <;> rintro rfl
  · rw [h1] at h; cases h
  · rw [h2] at h; cases h

theorem white_not_digit : ∀ c ∈ whiteSpaceChars, digitValue c = none := by decide

theorem digit_not_white {c : Char} {d : Nat} (h : digitValue c = some d) :
    isWhiteSpace c = false := by
  by_contra hw
  rw [Bool.not_eq_false, isWhiteSpace_iff] at hw
  rw [white_not_digit c hw] at h
  cases h

theorem signed_iff (b : List Char) (n : Int) :
    SignedBy Unsigned b n ↔
      (readUnsigned (splitSign b).2).map (fun m => (splitSign b).1 * (m : Int)) = some n := by
  have hmap : ∀ (sg : Int) (u : List Char),
      ((readUnsigned u).map (fun m => sg * (m : Int)) = some n ↔ ∃ m, Unsigned u m ∧ n = sg * m) := by
    intro sg u
    constructor
    · intro h
      cases hr : readUnsigned u with
      | none => rw [hr] at h; cases h
      | some m =>
        rw [hr] at h
        exact ⟨m, (unsigned_iff u m).mpr hr, (Option.some.inj h).symm⟩
    · rintro ⟨m, hu, rfl⟩
      rw [(unsigned_iff u m).mp hu]
      rfl
  cases b with
  | nil =>
    simp only [splitSign, hmap]
    constructor
    · rintro (⟨u, m, h, -⟩ | ⟨u, m, h, -⟩ | ⟨m, hu, hn⟩)
      · cases h
      · cases h
      · exact ⟨m, hu, by simpa using hn⟩
    · rintro ⟨m, hu, hn⟩
      exact Or.inr (Or.inr ⟨m, hu, by simpa using hn⟩)
  | cons c t =>
    by_cases hm : c = '-'
    · subst hm
      simp only [splitSign, hmap]
      constructor
      · rintro (⟨u, m, h, hu, hn⟩ | ⟨u, m, h, -⟩ | ⟨m, hu, hn⟩)
        · cases h; exact ⟨m, hu, by simpa using hn⟩
        · cases h
        · obtain ⟨c, t', d, h, hd⟩ := unsigned_head hu
          cases h
          exact absurd rfl (digit_not_sign hd).1
      · rintro ⟨m, hu, hn⟩
        exact Or.inl ⟨t, m, rfl, hu, by simpa using hn⟩
    · by_cases hp : c = '+'
      · subst hp
        simp only [splitSign, hmap]
        constructor
        · rintro (⟨u, m, h, hu, hn⟩ | ⟨u, m, h, hu, hn⟩ | ⟨m, hu, hn⟩)
          · cases h
          · cases h; exact ⟨m, hu, by simpa using hn⟩
          · obtain ⟨c, t', d, h, hd⟩ := unsigned_head hu
            cases h
            exact absurd rfl (digit_not_sign hd).2
        · rintro ⟨m, hu, hn⟩
          exact Or.inr (Or.inl ⟨t, m, rfl, hu, by simpa using hn⟩)
      · have hs : splitSign (c :: t) = (1, c :: t) := by
          unfold splitSign
          split
          · rename_i h; cases h; exact absurd rfl hm
          · rename_i h; cases h; exact absurd rfl hp
          · rfl
        rw [hs]
        simp only [hmap]
        constructor
        · rintro (⟨u, m, h, -⟩ | ⟨u, m, h, -⟩ | ⟨m, hu, hn⟩)
          · cases h; exact absurd rfl hm
          · cases h; exact absurd rfl hp
          · exact ⟨m, hu, by simpa using hn⟩
        · rintro ⟨m, hu, hn⟩
          exact Or.inr (Or.inr ⟨m, hu, by simpa using hn⟩)

theorem signed_head_not_white {b : List Char} {n : Int} (h : SignedBy Unsigned b n) :
    ∃ c t, b = c :: t ∧ isWhiteSpace c = false := by
  rcases h with ⟨u, m, h, -⟩ | ⟨u, m, h, -⟩ | ⟨m, hu, -⟩
  · exact ⟨_, _, h, by decide⟩
  · exact ⟨_, _, h, by decide⟩
  · obtain ⟨c, t, d, h, hd⟩ := unsigned_head hu
    exact ⟨c, t, h, digit_not_white hd⟩

theorem readsInteger_iff (s : String) (n : Int) :
    ReadsInteger s n ↔ parseIntMathInt s = some n := by
  unfold parseIntMathInt
  simp only
  rw [← signed_iff]
  constructor
  · rintro ⟨ws, b, hs, hws, hb⟩
    obtain ⟨c, t, rfl, hc⟩ := signed_head_not_white hb
    have : s.data.dropWhile isWhiteSpace = c :: t := by
      rw [hs]
      clear hs
      induction ws with
      | nil => simp [List.dropWhile, hc]
      | cons w ws ih =>
        have hw : isWhiteSpace w = true := (isWhiteSpace_iff w).mpr (hws w (List.mem_cons_self _ _))
        simp only [List.cons_append, List.dropWhile_cons, hw, if_true]
        exact ih (fun c hc => hws c (List.mem_cons_of_mem _ hc))
    rw [this]
    exact hb
  · intro hb
    refine ⟨s.data.takeWhile isWhiteSpace, s.data.dropWhile isWhiteSpace,
      (List.takeWhile_append_dropWhile _ _).symm, ?_, hb⟩
    intro c hc
    exact (isWhiteSpace_iff c).mp (List.mem_takeWhile_imp hc)

theorem doubleRange_eq : doubleRange = 2 ^ 1024 := by
  unfold doubleRange
  rw [← pow_add, ← pow_add, ← pow_add]

/-- The model's rounding yields exactly the Number that stands for the integer. -/
theorem toDouble_iff (n : Int) (x : JSNum) : toDouble n = x ↔ NumberOf n x := by
  have hr := roundSignificand_roundsTo n.natAbs
  unfold toDouble NumberOf
  simp only
  rw [doubleRange_eq]
  constructor
  · intro h
    refine ⟨roundSignificand n.natAbs, hr, ?_⟩
    by_cases hd : roundSignificand n.natAbs < 2 ^ 1024 <;> by_cases hn : n < 0
    · rw [if_pos hd, if_pos hn] at h
      exact Or.inr (Or.inl ⟨hd, hn, h.symm⟩)
    · rw [if_pos hd, if_neg hn] at h
      exact Or.inl ⟨hd, not_lt.mp hn, h.symm⟩
    · rw [if_neg hd, if_pos hn] at h
      exact Or.inr (Or.inr (Or.inr ⟨not_lt.mp hd, hn, h.symm⟩))
    · rw [if_neg hd, if_neg hn] at h
      exact Or.inr (Or.inr (Or.inl ⟨not_lt.mp hd, not_lt.mp hn, h.symm⟩))
  · rintro ⟨d, hd, h⟩
    have hdd := roundsTo_unique hr hd
    rw [hdd]
    rcases h with ⟨h1, h2, rfl⟩ | ⟨h1, h2, rfl⟩ | ⟨h1, h2, rfl⟩ | ⟨h1, h2, rfl⟩
    · rw [if_pos h1, if_neg (not_lt.mpr h2)]
    · rw [if_pos h1, if_pos h2]
    · rw [if_neg (not_lt.mpr h1), if_neg (not_lt.mpr h2)]
    · rw [if_neg (not_lt.mpr h1), if_pos h2]

theorem toDouble_ne_nan (n : Int) : toDouble n ≠ .nan := by
  unfold toDouble
  simp only
  split_ifs <;> simp

/-- Below `2^53` the Number of an integer is the integer. -/
theorem toDouble_small (n : Int) (h : n.natAbs < 2 ^ 53) : toDouble n = .fin (n : ℚ) := by
  unfold toDouble
  simp only
  rw [roundSignificand_small _ h]
  have hlt : n.natAbs < doubleRange := by
    rw [doubleRange_eq]
    have h2 := (@Nat.pow_lt_pow_iff_right 2 53 1024 (by decide)).mpr (by decide)
    omega
  rw [if_pos hlt]
  by_cases hn : n < 0
  · rw [if_pos hn]
    congr 1
    rw [Nat.cast_natAbs, abs_of_neg hn]
    push_cast
    ring
  · rw [if_neg hn]
    congr 1
    rw [Nat.cast_natAbs, abs_of_nonneg (not_lt.mp hn)]

/-- The comparison `>` after ToNumber is the relation `Exceeds`. -/
theorem gt_iff_exceeds (speed : Reading) (x : JSNum) :
    speed.toNumber.gt x = true ↔ Exceeds speed x := by
  rcases speed with _ | _ | (_ | _ | q | _) <;> rcases x with _ | _ | l | _ <;>
    simp [Reading.toNumber, JSNum.gt, Exceeds]

theorem gt_posInf (x : JSNum) : x.gt .posInf = false := by
  cases x <;> rfl

theorem parseInt_eq (s : String) :
    (parseInt s = .nan ∧ ∀ n, ¬ ReadsInteger s n) ∨
      ∃ n, ReadsInteger s n ∧ parseInt s = toDouble n := by
  unfold parseInt
  cases h : parseIntMathInt s with
  | none =>
    left
    refine ⟨rfl, fun n hn => ?_⟩
    rw [readsInteger_iff, h] at hn
    cases hn
  | some n => exact Or.inr ⟨n, (readsInteger_iff s n).mpr h, rfl⟩

theorem readsInteger_unique {s : String} {n n' : Int} (h : ReadsInteger s n)
    (h' : ReadsInteger s n') : n = n' := by
  rw [readsInteger_iff] at h h'
  rw [h] at h'
  exact Option.some.inj h'

theorem maxSpeed_str (s : String) :
    maxSpeed (.str s) = if parseInt s = .nan then .posInf else parseInt s := by
  by_cases hs : s = ""
  · subst hs
    have : parseInt "" = .nan := by decide
    simp [maxSpeed, SpeedLimitValue.truthy, this]
  · cases h : parseInt s <;>
      simp [maxSpeed, SpeedLimitValue.truthy, SpeedLimitValue.toStr, h, isNaN, hs]

/-- The limit the comparison uses, in terms of the reading of the string: the Number of the
integer read, `Infinity` when there is none. -/
theorem maxSpeed_reads (s : String) :
    (maxSpeed (.str s) = .posInf ∧ ∀ n, ¬ ReadsInteger s n) ∨
      ∃ n, ReadsInteger s n ∧ maxSpeed (.str s) = toDouble n := by
  rw [maxSpeed_str]
  rcases parseInt_eq s with ⟨h, hn⟩ | ⟨n, hn, h⟩
  · exact Or.inl ⟨by rw [if_pos h], hn⟩
  · refine Or.inr ⟨n, hn, ?_⟩
    rw [if_neg (by rw [h]; exact toDouble_ne_nan n), h]

theorem backgroundColor_cases (speed : Reading) (speedLimit : SpeedLimitValue) :
    backgroundColor speed speedLimit = "#ffcccc" ∨
      backgroundColor speed speedLimit = "#f0f0f0" := by
  unfold backgroundColor
  split
  · exact Or.inl rfl
  · exact Or.inr rfl

theorem backgroundColor_iff_gt (speed : Reading) (speedLimit : SpeedLimitValue) :
    backgroundColor speed speedLimit = "#ffcccc" ↔
      speed.toNumber.gt (maxSpeed speedLimit) = true := by
  unfold backgroundColor
  split_ifs with h
  · simp [h]
  · simp only [h, iff_false]
    decide

theorem nominatimThen_normal (response : NominatimData) (st : ViewState) :
    (nominatimThen response st).1 = .normal := rfl

theorem isError_iff (speedLimit : SpeedLimitValue) :
    isError speedLimit = true ↔ containsError speedLimit := by
  cases speedLimit with
  | null => simp [isError, containsError, SpeedLimitValue.truthy]
  | undefined => simp [isError, containsError, SpeedLimitValue.truthy]
  | str s =>
    have hne : "Error".data <:+: s.data → s ≠ "" := by
      rintro h rfl
      have := List.infix_nil.mp h
      exact absurd this (by decide)
    simp only [isError, SpeedLimitValue.truthy, includes, Bool.and_eq_true, occursIn_iff,
      containsError, SpeedLimitValue.str.injEq, exists_eq_left', bne_iff_ne, ne_eq]
    exact ⟨fun h => h.2, fun h => ⟨hne h, h⟩⟩

theorem isLoading_iff (speedLimit : SpeedLimitValue) :
    isLoading speedLimit = true ↔ speedLimit = .null := by
  simp [isLoading]

/-- With the flags as in the source, the refresh effect issues its two requests exactly
when both coordinates are truthy and the view is online, and none otherwise. -/
theorem refreshEffect_requests (location : Position) (st : ViewState) :
    (refreshEffect sourceFlags location st).2 =
      if location.latitude.truthy = true ∧ location.longitude.truthy = true ∧ st.isOnline = true
      then [.overpass location.latitude location.longitude,
            .nominatim location.latitude location.longitude]
      else [] := by
  by_cases h : location.latitude.truthy = true ∧ location.longitude.truthy = true ∧
      st.isOnline = true
  · rw [if_pos h]
    simp [refreshEffect, sourceFlags, h.1, h.2.1, h.2.2]
  · rw [if_neg h]
    unfold refreshEffect
    simp only [sourceFlags, Bool.false_eq_true, if_false, Bool.and_eq_true]
    rw [if_neg (by simpa [and_assoc] using h)]
    split <;> rfl

/-- No request goes out while a coordinate is absent. -/
theorem refreshEffect_absent_coordinate (location : Position) (st : ViewState)
    (h : location.latitude = .undefined ∨ location.latitude = .null ∨
      location.longitude = .undefined ∨ location.longitude = .null) :
    (refreshEffect sourceFlags location st).2 = [] := by
  rw [refreshEffect_requests]
  apply if_neg
  rintro ⟨h1, h2, -⟩
  rcases h with h | h | h | h <;> simp [h, Reading.truthy] at h1 h2

/-- Both requests go out when the view is online and both coordinates are finite numbers
other than zero. -/
theorem refreshEffect_nonzero_coordinates (lat lon : ℚ) (speed : Reading) (st : ViewState)
    (hlat : lat ≠ 0) (hlon : lon ≠ 0) (honline : st.isOnline = true) :
    (refreshEffect sourceFlags
      { latitude := .num (.fin lat), longitude := .num (.fin lon), speed := speed } st).2 =
      [.overpass (.num (.fin lat)) (.num (.fin lon)),
       .nominatim (.num (.fin lat)) (.num (.fin lon))] := by
  rw [refreshEffect_requests]
  simp [Reading.truthy, hlat, hlon, honline]

/-! ## The claims -/

/-- Claim C1. When the Overpass answer has a non-empty `elements` list whose first entry has a
`tags` object, the chain ends normally with `speedLimit` equal to that entry's `maxspeed`
tag (`undefined` when the tag is missing), `locationDetails.road` equal to its `name` tag
when that is present and not empty and to "Unknown Road" otherwise, and `suburb`, `city`
and `zip` as they were. -/
theorem overpassChain_first_result (response : OverpassData) (st : ViewState)
    (first : OverpassElement) (rest : List OverpassElement) (tags : List (String × String))
    (helements : response.elements = some (first :: rest)) (htags : first.tags = some tags) :
    (overpassChain (.fulfilled response) st).1 = .normal ∧
    (∀ limit, tags.lookup "maxspeed" = some limit →
      (overpassChain (.fulfilled response) st).2.speedLimit = .str limit) ∧
    (tags.lookup "maxspeed" = none →
      (overpassChain (.fulfilled response) st).2.speedLimit = .undefined) ∧
    (∀ name, presentNonEmpty (tags.lookup "name") name →
      (overpassChain (.fulfilled response) st).2.locationDetails.road = name) ∧
    (missingOrEmpty (tags.lookup "name") →
      (overpassChain (.fulfilled response) st).2.locationDetails.road = "Unknown Road") ∧
    (overpassChain (.fulfilled response) st).2.locationDetails.suburb = st.locationDetails.suburb ∧
    (overpassChain (.fulfilled response) st).2.locationDetails.city = st.locationDetails.city ∧
    (overpassChain (.fulfilled response) st).2.locationDetails.zip = st.locationDetails.zip ∧
    (overpassChain (.fulfilled response) st).2.isOnline = st.isOnline := by
  rcases response with ⟨els⟩
  rcases first with ⟨ftags⟩
  simp only at helements htags
  subst helements htags
  simp only [overpassChain, overpassThen_cons]
  refine ⟨trivial, fun limit h => ?_, fun h => ?_, fun name h => orElse_of_presentNonEmpty _ h,
    fun h => orElse_of_missingOrEmpty _ h, trivial, trivial, trivial, trivial⟩
  · rw [h]
    rfl
  · rw [h]
    rfl

/-- Claim C1 at two answers. The first way tagged `maxspeed=100`, `name=State Highway 1`,
followed by a way tagged `maxspeed=50`: the limit becomes "100" and the road "State Highway
1". A first way tagged `maxspeed=30 mph` with an empty `name`: the limit becomes "30 mph"
and the road "Unknown Road". -/
theorem overpassChain_first_result_witness :
    ((overpassChain
        (.fulfilled
          { elements := some
              [{ tags := some [("highway", "trunk"), ("maxspeed", "100"),
                               ("name", "State Highway 1")] },
               { tags := some [("maxspeed", "50"), ("name", "Queen Street")] }] })
        (initialState true)).2.speedLimit = .str "100" ∧
      (overpassChain
        (.fulfilled
          { elements := some
              [{ tags := some [("highway", "trunk"), ("maxspeed", "100"),
                               ("name", "State Highway 1")] },
               { tags := some [("maxspeed", "50"), ("name", "Queen Street")] }] })
        (initialState true)).2.locationDetails.road = "State Highway 1") ∧
    ((overpassChain
        (.fulfilled
          { elements := some [{ tags := some [("name", ""), ("maxspeed", "30 mph")] }] })
        (initialState true)).2.speedLimit = .str "30 mph" ∧
      (overpassChain
        (.fulfilled
          { elements := some [{ tags := some [("name", ""), ("maxspeed", "30 mph")] }] })
        (initialState true)).2.locationDetails.road = "Unknown Road") :=
  have h := overpassChain_first_result
    { elements := some
        [{ tags := some [("highway", "trunk"), ("maxspeed", "100"),
                         ("name", "State Highway 1")] },
         { tags := some [("maxspeed", "50"), ("name", "Queen Street")] }] }
    (initialState true)
    { tags := some [("highway", "trunk"), ("maxspeed", "100"), ("name", "State Highway 1")] }
    [{ tags := some [("maxspeed", "50"), ("name", "Queen Street")] }]
    [("highway", "trunk"), ("maxspeed", "100"), ("name", "State Highway 1")] rfl rfl
  have h' := overpassChain_first_result
    { elements := some [{ tags := some [("name", ""), ("maxspeed", "30 mph")] }] }
    (initialState true) { tags := some [("name", ""), ("maxspeed", "30 mph")] } []
    [("name", ""), ("maxspeed", "30 mph")] rfl rfl
  ⟨⟨h.2.1 "100" (by decide), h.2.2.2.1 "State Highway 1" ⟨by decide, by decide⟩⟩,
    ⟨h'.2.1 "30 mph" (by decide), h'.2.2.2.2.1 (Or.inr (by decide))⟩⟩

/-- Claim C2 as stated fails on the source. Read by the decimal grammar, "0x10" has the
leading integer 0 and a speed of 1 exceeds it, yet `parseInt` reads 16 and the background
is '#f0f0f0'. And "9007199254740995" is read as the double 9007199254740996, so the speed
9007199254740996, which is greater than the integer written, gives '#f0f0f0' too. -/
theorem backgroundColor_decimal_reading_fails :
    (ReadsDecimal "0x10" 0 ∧ ((0 : Int) : ℚ) < 1 ∧
      backgroundColor (.num (.fin 1)) (.str "0x10") = "#f0f0f0" ∧
      backgroundColor (.num (.fin 1)) (.str "0x10") ≠ "#ffcccc") ∧
    (ReadsDecimal "9007199254740995" 9007199254740995 ∧
      ((9007199254740995 : Int) : ℚ) < 9007199254740996 ∧
      backgroundColor (.num (.fin 9007199254740996)) (.str "9007199254740995") = "#f0f0f0" ∧
      backgroundColor (.num (.fin 9007199254740996)) (.str "9007199254740995") ≠ "#ffcccc") := by
  refine ⟨⟨?_, by norm_num, by decide, by decide⟩, ⟨?_, by norm_num, by decide, by decide⟩⟩
  · exact ⟨[], "0x10".data, rfl, by simp,
      Or.inr (Or.inr ⟨0, (digitRun_iff 10 (by decide) _ _).mpr ⟨by decide, by decide⟩, rfl⟩)⟩
  · exact ⟨[], "9007199254740995".data, rfl, by simp,
      Or.inr (Or.inr ⟨9007199254740995,
        (digitRun_iff 10 (by decide) _ _).mpr ⟨by decide, by decide⟩, rfl⟩)⟩

/-- Claim C2, amended. The background is '#ffcccc' exactly when `speedLimit` is a string with
a leading integer `n` as `parseInt` reads it (optional white space, an optional sign, then
hexadecimal digits after `0x` / `0X` or else decimal digits), and the current speed is
greater than the Number for `n` (its nearest double, an infinity beyond the doubles); in
every other case it is '#f0f0f0'. For `|n| < 2^53` and a numeric speed `q` this is `n < q`.
When `speedLimit` is `null`, or a string with no leading integer, `maxSpeed` is `Infinity`
and the background is '#f0f0f0' at every speed. Speed 55 against "50" exceeds, 45 and 50
against "50" do not, 60 against "50 mph" exceeds. -/
theorem backgroundColor_exceeding_iff (speedLimit : SpeedLimitValue) (speed : Reading) :
    (backgroundColor speed speedLimit = "#ffcccc" ↔
      ∃ (s : String) (n : Int) (x : JSNum), speedLimit = .str s ∧ ReadsInteger s n ∧
        NumberOf n x ∧ Exceeds speed x) ∧
    (backgroundColor speed speedLimit ≠ "#ffcccc" → backgroundColor speed speedLimit = "#f0f0f0") ∧
    (∀ (s : String) (n : Int) (q : ℚ), speedLimit = .str s → ReadsInteger s n →
      n.natAbs < 2 ^ 53 → speed = .num (.fin q) →
      (backgroundColor speed speedLimit = "#ffcccc" ↔ (n : ℚ) < q)) ∧
    ((speedLimit = .null ∨ ∃ s, speedLimit = .str s ∧ ∀ n, ¬ ReadsInteger s n) →
      maxSpeed speedLimit = .posInf ∧ backgroundColor speed speedLimit = "#f0f0f0") ∧
    backgroundColor (.num (.fin 55)) (.str "50") = "#ffcccc" ∧
    backgroundColor (.num (.fin 45)) (.str "50") = "#f0f0f0" ∧
    backgroundColor (.num (.fin 50)) (.str "50") = "#f0f0f0" ∧
    backgroundColor (.num (.fin 60)) (.str "50 mph") = "#ffcccc" := by
  have key : backgroundColor speed speedLimit = "#ffcccc" ↔
      ∃ (s : String) (n : Int) (x : JSNum), speedLimit = .str s ∧ ReadsInteger s n ∧
        NumberOf n x ∧ Exceeds speed x := by
    rw [backgroundColor_iff_gt]
    cases speedLimit with
    | null =>
      have : maxSpeed .null = .posInf := rfl
      simp [this, gt_posInf]
    | undefined =>
      have : maxSpeed .undefined = .posInf := rfl
      simp [this, gt_posInf]
    | str s =>
      rcases maxSpeed_reads s with ⟨h, hn⟩ | ⟨n, hn, h⟩
      · rw [h, gt_posInf]
        simp only [Bool.false_eq_true, false_iff, not_exists]
        rintro s' n x ⟨hs, hr, -⟩
        cases hs
        exact hn n hr
      · rw [h, gt_iff_exceeds]
        constructor
        · intro hx
          exact ⟨s, n, toDouble n, rfl, hn, (toDouble_iff n _).mp rfl, hx⟩
        · rintro ⟨s', n', x, hs, hr, hx, he⟩
          cases hs
          have := readsInteger_unique hn hr
          subst this
          rw [(toDouble_iff n x).mpr hx]
          exact he
  refine ⟨key, fun h => (backgroundColor_cases _ _).resolve_left h, ?_, ?_,
    by decide, by decide, by decide, by decide⟩
  · rintro s n q rfl hn hsmall rfl
    rw [key]
    constructor
    · rintro ⟨s', n', x, hs, hr, hx, he⟩
      cases hs
      have := readsInteger_unique hn hr
      subst this
      rw [← (toDouble_iff n x).mpr hx, toDouble_small n hsmall] at he
      exact he
    · intro hlt
      exact ⟨s, n, .fin (n : ℚ), rfl, hn, (toDouble_iff n _).mp (toDouble_small n hsmall), hlt⟩
  · intro h
    have hmax : maxSpeed speedLimit = .posInf := by
      rcases h with rfl | ⟨t, rfl, hnone⟩
      · rfl
      · rcases maxSpeed_reads t with ⟨h, -⟩ | ⟨n, hn, -⟩
        · exact h
        · exact absurd hn (hnone n)
    refine ⟨hmax, ?_⟩
    simp [backgroundColor, hmax, gt_posInf]

/-- Claim C2, amended, at five limits, each at a speed that exceeds it and at one that does not:
a unit after the number, a negative limit against an absent (`null`) speed, a tab and a
plus sign in front, a hexadecimal limit, and a limit beyond `2^53` that is rounded up. -/
theorem backgroundColor_exceeding_iff_witness :
    (backgroundColor (.num (.fin 72)) (.str "70 km/h") = "#ffcccc" ∧
      backgroundColor (.num (.fin 70)) (.str "70 km/h") = "#f0f0f0") ∧
    (backgroundColor .null (.str "-5") = "#ffcccc" ∧
      backgroundColor .undefined (.str "-5") = "#f0f0f0" ∧
      backgroundColor (.num (.fin (-5))) (.str "-5") = "#f0f0f0") ∧
    (backgroundColor (.num (.fin 101)) (.str "\t+100") = "#ffcccc" ∧
      backgroundColor (.num (.fin 100)) (.str "\t+100") = "#f0f0f0") ∧
    (backgroundColor (.num (.fin 27)) (.str "0x1A") = "#ffcccc" ∧
      backgroundColor (.num (.fin 26)) (.str "0x1A") = "#f0f0f0") ∧
    (backgroundColor (.num (.fin 9007199254740998)) (.str "9007199254740995") = "#ffcccc" ∧
      backgroundColor (.num (.fin 9007199254740996)) (.str "9007199254740995") = "#f0f0f0") ∧
    backgroundColor (.num (.fin 120)) .null = "#f0f0f0" :=
  ⟨⟨(backgroundColor_exceeding_iff (.str "70 km/h") (.num (.fin 72))).1.mpr
      ⟨"70 km/h", 70, .fin 70, rfl, (readsInteger_iff _ _).mpr (by decide),
        (toDouble_iff _ _).mp (by decide), by norm_num [Exceeds]⟩,
    by decide⟩,
   ⟨(backgroundColor_exceeding_iff (.str "-5") .null).1.mpr
      ⟨"-5", -5, .fin (-5), rfl, (readsInteger_iff _ _).mpr (by decide),
        (toDouble_iff _ _).mp (by decide), by norm_num [Exceeds]⟩,
    by decide, by decide⟩,
   ⟨(backgroundColor_exceeding_iff (.str "\t+100") (.num (.fin 101))).1.mpr
      ⟨"\t+100", 100, .fin 100, rfl, (readsInteger_iff _ _).mpr (by decide),
        (toDouble_iff _ _).mp (by decide), by norm_num [Exceeds]⟩,
    by decide⟩,
   ⟨(backgroundColor_exceeding_iff (.str "0x1A") (.num (.fin 27))).1.mpr
      ⟨"0x1A", 26, .fin 26, rfl, (readsInteger_iff _ _).mpr (by decide),
        (toDouble_iff _ _).mp (by decide), by norm_num [Exceeds]⟩,
    by decide⟩,
   ⟨(backgroundColor_exceeding_iff (.str "9007199254740995")
        (.num (.fin 9007199254740998))).1.mpr
      ⟨"9007199254740995", 9007199254740995, .fin 9007199254740996, rfl,
        (readsInteger_iff _ _).mpr (by decide), (toDouble_iff _ _).mp (by decide),
        by norm_num [Exceeds]⟩,
    by decide⟩,
   ((backgroundColor_exceeding_iff .null (.num (.fin 120))).2.2.2.1 (Or.inl rfl)).2⟩

/-- Claim C3, evaluated on the source. Online and with the flags off, a position on the
equator (latitude 0, longitude 175) or on the prime meridian (latitude -37, longitude 0)
issues no request, because `0` is falsy in `location.latitude && location.longitude &&
isOnline`; the same run at latitude -37, longitude 175 issues both. -/
theorem refreshEffect_zero_coordinate :
    (refreshEffect sourceFlags
      { latitude := .num (.fin 0), longitude := .num (.fin 175), speed := .num (.fin 14) }
      (initialState true)).2 = [] ∧
    (refreshEffect sourceFlags
      { latitude := .num (.fin (-37)), longitude := .num (.fin 0), speed := .num (.fin 14) }
      (initialState true)).2 = [] ∧
    (refreshEffect sourceFlags
      { latitude := .num (.fin (-37)), longitude := .num (.fin 175), speed := .num (.fin 14) }
      (initialState true)).2 =
        [.overpass (.num (.fin (-37))) (.num (.fin 175)),
         .nominatim (.num (.fin (-37))) (.num (.fin 175))] := by
  decide

/-- Claim C4. When the Overpass request is rejected, or its `.then` handler throws, the chain
ends normally, `speedLimit` is "Error fetching speed limit data.", and `locationDetails`
and the connectivity flag are as they were. -/
theorem overpassChain_failure (outcome : Outcome OverpassData) (st : ViewState)
    (hfail : outcome = .rejected ∨
      ∃ response, outcome = .fulfilled response ∧ (overpassThen response st).1 = .thrown) :
    (overpassChain outcome st).1 = .normal ∧
    (overpassChain outcome st).2.speedLimit = .str "Error fetching speed limit data." ∧
    (overpassChain outcome st).2.locationDetails = st.locationDetails ∧
    (overpassChain outcome st).2.isOnline = st.isOnline := by
  rcases hfail with rfl | ⟨response, rfl, hthrown⟩
  · exact ⟨rfl, rfl, rfl, rfl⟩
  · have hst := overpassThen_thrown_state response st hthrown
    have hchain : overpassChain (.fulfilled response) st = overpassCatch st := by
      rcases hres : overpassThen response st with ⟨c, st'⟩
      rw [hres] at hthrown hst
      simp only at hthrown hst
      subst hthrown hst
      simp only [overpassChain, hres]
    rw [hchain]
    exact ⟨rfl, rfl, rfl, rfl⟩

/-- Claim C4 at an answer whose first entry has no `tags`: the handler throws, and the state
after the chain is the error message with the location details untouched. -/
theorem overpassChain_failure_witness :
    (overpassThen { elements := some [{ tags := none }] } (initialState true)).1 = .thrown ∧
    ((overpassChain (.fulfilled { elements := some [{ tags := none }] }) (initialState true)).1 =
        .normal ∧
      (overpassChain (.fulfilled { elements := some [{ tags := none }] })
        (initialState true)).2.speedLimit = .str "Error fetching speed limit data." ∧
      (overpassChain (.fulfilled { elements := some [{ tags := none }] })
        (initialState true)).2.locationDetails = (initialState true).locationDetails ∧
      (overpassChain (.fulfilled { elements := some [{ tags := none }] })
        (initialState true)).2.isOnline = (initialState true).isOnline) :=
  ⟨by decide,
    overpassChain_failure (.fulfilled { elements := some [{ tags := none }] })
      (initialState true) (Or.inr ⟨_, rfl, by decide⟩)⟩

/-- Claim C5. When the Nominatim request is rejected, `locationDetails` keeps its `road` and
gets "Error fetching suburb", "Error fetching city" and "Error fetching zip code";
`speedLimit` and the connectivity flag are as they were, and the chain ends normally. -/
theorem nominatimChain_rejected (st : ViewState) :
    (nominatimChain .rejected st).2.locationDetails =
      { road := st.locationDetails.road
        suburb := "Error fetching suburb"
        city := "Error fetching city"
        zip := "Error fetching zip code" } ∧
    (nominatimChain .rejected st).2.speedLimit = st.speedLimit ∧
    (nominatimChain .rejected st).2.isOnline = st.isOnline ∧
    (nominatimChain .rejected st).1 = .normal :=
  ⟨rfl, rfl, rfl, rfl⟩

/-- Claim C5 with a road already known: "Queen Street" survives the failed lookup. -/
theorem nominatimChain_rejected_witness :
    (nominatimChain .rejected
      { speedLimit := .str "50"
        locationDetails :=
          { road := "Queen Street", suburb := "Auckland Central", city := "Auckland",
            zip := "1010" }
        isOnline := true }).2.locationDetails =
      { road := "Queen Street", suburb := "Error fetching suburb",
        city := "Error fetching city", zip := "Error fetching zip code" } :=
  (nominatimChain_rejected
    { speedLimit := .str "50"
      locationDetails :=
        { road := "Queen Street", suburb := "Auckland Central", city := "Auckland",
          zip := "1010" }
      isOnline := true }).1

/-- Claim C6. Offline and with neither override flag set, the refresh effect issues no
request at any position and sets `speedLimit` to "No Internet Connection!", leaving the
rest of the state; the outer circle then shows the offline message with that text. -/
theorem refreshEffect_offline (flags : TestFlags) (location : Position) (st : ViewState)
    (hoffline : st.isOnline = false)
    (hnoData : flags.useTestNoSpeedLimit = false)
    (herror : flags.useTestErrorFetching = false) :
    (refreshEffect flags location st).2 = [] ∧
    (refreshEffect flags location st).1.speedLimit = .str "No Internet Connection!" ∧
    (refreshEffect flags location st).1.locationDetails = st.locationDetails ∧
    (refreshEffect flags location st).1.isOnline = false ∧
    outerCircle (refreshEffect flags location st).1.speedLimit
        (refreshEffect flags location st).1.isOnline =
      .offlineMessage (.str "No Internet Connection!") := by
  have h : refreshEffect flags location st =
      (setSpeedLimit (.str "No Internet Connection!") st, []) := by
    simp [refreshEffect, hoffline, hnoData, herror]
  rw [h]
  refine ⟨rfl, rfl, rfl, hoffline, ?_⟩
  simp only [setSpeedLimit, hoffline]
  decide

/-- Claim C6 right after an offline mount, at a position with both coordinates. -/
theorem refreshEffect_offline_witness :
    (initialState false).isOnline = false ∧
    ((refreshEffect sourceFlags
        { latitude := .num (.fin (-37)), longitude := .num (.fin 175), speed := .null }
        (initialState false)).2 = [] ∧
      (refreshEffect sourceFlags
        { latitude := .num (.fin (-37)), longitude := .num (.fin 175), speed := .null }
        (initialState false)).1.speedLimit = .str "No Internet Connection!") :=
  have h := refreshEffect_offline sourceFlags
    { latitude := .num (.fin (-37)), longitude := .num (.fin 175), speed := .null }
    (initialState false) rfl rfl rfl
  ⟨rfl, h.1, h.2.1⟩

/-- Claim C7. When the Overpass answer has an empty `elements` list, the chain ends normally
with `speedLimit` equal to "No speed limit data available." and everything else as it
was; with that `speedLimit` the background is '#f0f0f0' at every current speed. -/
theorem overpassChain_empty (response : OverpassData) (st : ViewState)
    (hempty : response.elements = some []) :
    (overpassChain (.fulfilled response) st).1 = .normal ∧
    (overpassChain (.fulfilled response) st).2.speedLimit =
      .str "No speed limit data available." ∧
    (overpassChain (.fulfilled response) st).2.locationDetails = st.locationDetails ∧
    (overpassChain (.fulfilled response) st).2.isOnline = st.isOnline ∧
    ∀ speed : Reading,
      backgroundColor speed (overpassChain (.fulfilled response) st).2.speedLimit = "#f0f0f0" := by
  rcases response with ⟨els⟩
  simp only at hempty
  subst hempty
  refine ⟨rfl, rfl, rfl, rfl, fun speed => ?_⟩
  have hmax : maxSpeed (.str "No speed limit data available.") = .posInf := by decide
  show backgroundColor speed (.str "No speed limit data available.") = "#f0f0f0"
  simp [backgroundColor, hmax, gt_posInf]

/-- Claim C7 at the answer `{ elements: [] }` and a speed of 120. -/
theorem overpassChain_empty_witness :
    (overpassChain (.fulfilled { elements := some [] }) (initialState true)).2.speedLimit =
      .str "No speed limit data available." ∧
    backgroundColor (.num (.fin 120))
      (overpassChain (.fulfilled { elements := some [] }) (initialState true)).2.speedLimit =
      "#f0f0f0" :=
  have h := overpassChain_empty { elements := some [] } (initialState true) rfl
  ⟨h.2.1, h.2.2.2.2 (.num (.fin 120))⟩

/-- Claim C8 as stated fails on the source. With `address = { city: "", town: "Huntly" }` the
handler stores city "Huntly", since the empty string is falsy for `||`; read as
"`address.city` if present", the city would be the empty string. -/
theorem nominatimChain_empty_city :
    (nominatimChain
      (.fulfilled
        { address :=
            some { suburb := none, city := some "", town := some "Huntly", postcode := none } })
      (initialState true)).2.locationDetails.city = "Huntly" ∧
    presentOr (some "") (presentOr (some "Huntly") "Unknown City") = "" ∧
    (nominatimChain
      (.fulfilled
        { address :=
            some { suburb := none, city := some "", town := some "Huntly", postcode := none } })
      (initialState true)).2.locationDetails.city ≠
      presentOr (some "") (presentOr (some "Huntly") "Unknown City") := by
  decide

/-- Claim C8, amended. For every Nominatim answer the chain ends normally and leaves `road` and
`speedLimit` as they were. With an `address` object: `suburb` is its `suburb` member when
present and not empty, else "Unknown Suburb"; `city` is its `city` member when present and
not empty, else its `town` member when present and not empty, else "Unknown City"; `zip`
is its `postcode` member when present and not empty, else "Unknown Zip Code". Without an
`address` object the three are "Unknown Suburb", "Unknown City", "Unknown Zip Code". -/
theorem nominatimChain_merge (response : NominatimData) (st : ViewState) :
    (nominatimChain (.fulfilled response) st).1 = .normal ∧
    (nominatimChain (.fulfilled response) st).2.locationDetails.road = st.locationDetails.road ∧
    (nominatimChain (.fulfilled response) st).2.speedLimit = st.speedLimit ∧
    (∀ address, response.address = some address →
      (∀ s, presentNonEmpty address.suburb s →
        (nominatimChain (.fulfilled response) st).2.locationDetails.suburb = s) ∧
      (missingOrEmpty address.suburb →
        (nominatimChain (.fulfilled response) st).2.locationDetails.suburb = "Unknown Suburb") ∧
      (∀ c, presentNonEmpty address.city c →
        (nominatimChain (.fulfilled response) st).2.locationDetails.city = c) ∧
      (missingOrEmpty address.city → ∀ t, presentNonEmpty address.town t →
        (nominatimChain (.fulfilled response) st).2.locationDetails.city = t) ∧
      (missingOrEmpty address.city → missingOrEmpty address.town →
        (nominatimChain (.fulfilled response) st).2.locationDetails.city = "Unknown City") ∧
      (∀ z, presentNonEmpty address.postcode z →
        (nominatimChain (.fulfilled response) st).2.locationDetails.zip = z) ∧
      (missingOrEmpty address.postcode →
        (nominatimChain (.fulfilled response) st).2.locationDetails.zip = "Unknown Zip Code")) ∧
    (response.address = none →
      (nominatimChain (.fulfilled response) st).2.locationDetails.suburb = "Unknown Suburb" ∧
      (nominatimChain (.fulfilled response) st).2.locationDetails.city = "Unknown City" ∧
      (nominatimChain (.fulfilled response) st).2.locationDetails.zip = "Unknown Zip Code") := by
  refine ⟨rfl, rfl, rfl, ?_, ?_⟩
  · intro address haddr
    have hs : (nominatimChain (.fulfilled response) st).2.locationDetails.suburb =
        orElse address.suburb "Unknown Suburb" := by
      simp [nominatimChain, nominatimThen, setLocationDetails, haddr]
    have hc : (nominatimChain (.fulfilled response) st).2.locationDetails.city =
        orElse address.city (orElse address.town "Unknown City") := by
      simp [nominatimChain, nominatimThen, setLocationDetails, haddr]
    have hz : (nominatimChain (.fulfilled response) st).2.locationDetails.zip =
        orElse address.postcode "Unknown Zip Code" := by
      simp [nominatimChain, nominatimThen, setLocationDetails, haddr]
    rw [hs, hc, hz]
    refine ⟨fun s h => orElse_of_presentNonEmpty _ h, fun h => orElse_of_missingOrEmpty _ h,
      fun c h => orElse_of_presentNonEmpty _ h, fun h t ht => ?_, fun h ht => ?_,
      fun z h => orElse_of_presentNonEmpty _ h, fun h => orElse_of_missingOrEmpty _ h⟩
    · rw [orElse_of_missingOrEmpty _ h, orElse_of_presentNonEmpty _ ht]
    · rw [orElse_of_missingOrEmpty _ h, orElse_of_missingOrEmpty _ ht]
  · intro hnone
    simp [nominatimChain, nominatimThen, setLocationDetails, hnone, emptyAddress, orElse]

/-- Claim C8, amended, at `address = { suburb: "Grafton", town: "Huntly", postcode: "" }`:
suburb "Grafton", city "Huntly" through the `town` member, zip "Unknown Zip Code". -/
theorem nominatimChain_merge_witness :
    (nominatimChain
      (.fulfilled
        { address :=
            some { suburb := some "Grafton", city := none, town := some "Huntly",
                   postcode := some "" } })
      (initialState true)).2.locationDetails.suburb = "Grafton" ∧
    (nominatimChain
      (.fulfilled
        { address :=
            some { suburb := some "Grafton", city := none, town := some "Huntly",
                   postcode := some "" } })
      (initialState true)).2.locationDetails.city = "Huntly" ∧
    (nominatimChain
      (.fulfilled
        { address :=
            some { suburb := some "Grafton", city := none, town := some "Huntly",
                   postcode := some "" } })
      (initialState true)).2.locationDetails.zip = "Unknown Zip Code" :=
  have h := (nominatimChain_merge
    { address :=
        some { suburb := some "Grafton", city := none, town := some "Huntly",
               postcode := some "" } }
    (initialState true)).2.2.2.1 _ rfl
  ⟨h.1 "Grafton" ⟨rfl, by decide⟩, h.2.2.2.1 (Or.inl rfl) "Huntly" ⟨rfl, by decide⟩,
    h.2.2.2.2.2.2 (Or.inr rfl)⟩

/-- Claim C9. From every state, the connectivity listener run while the browser is online sets
the flag to online and `speedLimit` to `null`, so `isLoading` holds and the outer circle
shows the loading message; run while the browser is offline it sets the flag to offline
and keeps `speedLimit`. Either way `locationDetails` is as it was. -/
theorem handleOnlineStatus_reset (st : ViewState) :
    (handleOnlineStatus true st).isOnline = true ∧
    (handleOnlineStatus true st).speedLimit = .null ∧
    isLoading (handleOnlineStatus true st).speedLimit = true ∧
    (∀ online, outerCircle (handleOnlineStatus true st).speedLimit online = .loadingMessage) ∧
    (handleOnlineStatus false st).isOnline = false ∧
    (handleOnlineStatus false st).speedLimit = st.speedLimit ∧
    (handleOnlineStatus true st).locationDetails = st.locationDetails ∧
    (handleOnlineStatus false st).locationDetails = st.locationDetails :=
  ⟨rfl, rfl, rfl, fun _ => rfl, rfl, rfl, rfl, rfl⟩

/-- Claim C10. The outer circle depends on `speedLimit` and the connectivity flag only. It is
the loading message exactly when `speedLimit` is `null`; otherwise the error message
exactly when `speedLimit` is a string containing "Error", online or not; otherwise, when
online, the value, in the no-data style exactly when `speedLimit` is "No speed limit data
available."; otherwise the offline message. It is always one of these four. -/
theorem outerCircle_classification (speedLimit : SpeedLimitValue) (isOnline : Bool) :
    (outerCircle speedLimit isOnline = .loadingMessage ↔ speedLimit = .null) ∧
    (outerCircle speedLimit isOnline = .errorMessage speedLimit ↔
      speedLimit ≠ .null ∧ containsError speedLimit) ∧
    (outerCircle speedLimit isOnline =
        .speedLimitValue (decide (speedLimit = .str "No speed limit data available.")) speedLimit ↔
      speedLimit ≠ .null ∧ ¬ containsError speedLimit ∧ isOnline = true) ∧
    (outerCircle speedLimit isOnline = .offlineMessage speedLimit ↔
      speedLimit ≠ .null ∧ ¬ containsError speedLimit ∧ isOnline = false) ∧
    (outerCircle speedLimit isOnline = .loadingMessage ∨
      outerCircle speedLimit isOnline = .errorMessage speedLimit ∨
      outerCircle speedLimit isOnline =
        .speedLimitValue (decide (speedLimit = .str "No speed limit data available.")) speedLimit ∨
      outerCircle speedLimit isOnline = .offlineMessage speedLimit) := by
  have hL := isLoading_iff speedLimit
  have hE := isError_iff speedLimit
  by_cases h1 : speedLimit = .null
  · subst h1
    simp [outerCircle, isLoading]
  · have h1' : isLoading speedLimit = false := by
      simpa using (not_congr hL).mpr h1
    by_cases h2 : containsError speedLimit
    · have h2' : isError speedLimit = true := hE.mpr h2
      simp [outerCircle, h1, h1', h2, h2']
    · have h2' : isError speedLimit = false := by
        simpa using (not_congr hE).mpr h2
      cases isOnline
      · simp [outerCircle, h1, h1', h2, h2']
      · have hval : outerCircle speedLimit true =
            .speedLimitValue (decide (speedLimit = .str "No speed limit data available."))
              speedLimit := by
          simp only [outerCircle, h1', h2']
          by_cases h3 : speedLimit = .str "No speed limit data available."
          · simp [h3]
          · simp [h3]
        rw [hval]
        simp [h1, h2]

/-- Claim C10 at three inputs: an error text shows as the error message even offline, the
no-data text shows in its own style online, and a limit shows as the offline message
once offline. -/
theorem outerCircle_classification_witness :
    outerCircle (.str "Error fetching speed limit data.") false =
      .errorMessage (.str "Error fetching speed limit data.") ∧
    outerCircle (.str "No speed limit data available.") true =
      .speedLimitValue true (.str "No speed limit data available.") ∧
    outerCircle (.str "50") false = .offlineMessage (.str "50") :=
  ⟨(outerCircle_classification (.str "Error fetching speed limit data.") false).2.1.mpr
      ⟨by decide, _, rfl, by decide⟩,
    by decide, by decide⟩

end SpeedLimit
